import Mathlib

/-!
# Verification of the LBRY address generator (`src/index.js`)

A shallow embedding of the key-to-address derivation pipeline of the
`LBRYAddressGenerator` class.  Byte buffers (`Buffer`) are modelled as
`List Nat` whose elements are intended to lie below 256; strings are Lean
`String`s.  JavaScript exceptions are modelled with `Option`/`Except`,
carrying the thrown message.  The external cryptographic primitives that the
code calls are handled as follows:

* `crypto.createHash('sha256')` / `crypto.createHash('ripemd160')` are given
  full executable implementations (`sha256`, `ripemd160`) of FIPS 180-4
  SHA-256 and of RIPEMD-160;
* `secp256k1.privateKeyVerify` is modelled concretely from the library's
  documented semantics (32 bytes, scalar in the open interval
  (0, group order));
* `secp256k1.publicKeyCreate` (elliptic-curve scalar multiplication) is kept
  abstract: definitions that use it are parametrised by a function
  `pc : List Nat → List Nat`, and theorems that need its output shape take it
  as a hypothesis, matching the library's documented 33-byte compressed
  encoding.
-/

namespace LBRY

/-- Big-endian numeric value of a byte buffer, as produced by
`BigInt('0x' + data.toString('hex'))` on a non-empty buffer. -/
def bytesToNat (l : List Nat) : Nat := l.foldl (fun a b => a * 256 + b) 0

/-- The base-58 alphabet string used by `base58Encode`
(`'123456789ABCDEFGHJKLMNPQRSTUVWXYZabcdefghijkmnopqrstuvwxyz'`). -/
def alphabet : List Char :=
  "123456789ABCDEFGHJKLMNPQRSTUVWXYZabcdefghijkmnopqrstuvwxyz".data

/-- The source's `alphabet[d]` lookup (for `d < 58`). -/
def digitChar (d : Nat) : Char := alphabet.getD d '?'

/-- Fuel-driven base-58 digit extraction (structural recursion so that it
reduces inside the kernel); `b58digits` instantiates the fuel. -/
def b58digitsAux : Nat → Nat → List Nat
  | 0, _ => []
  | fuel + 1, n => if n = 0 then [] else b58digitsAux fuel (n / 58) ++ [n % 58]

/-- Base-58 digits of `n`, most significant first; `[]` for `0`.  This is
what the `while (num > 0)` loop of `base58Encode` accumulates (it prepends
`alphabet[num % 58]` on every iteration); `n` itself is always enough
fuel since the value shrinks by a factor 58 every step. -/
def b58digits (n : Nat) : List Nat := b58digitsAux n n

/-- Number of leading zero bytes of the buffer, as counted by the
`for (let i = 0; i < data.length && data[i] === 0; i++)` loop. -/
def leadingZeros : List Nat → Nat
  | [] => 0
  | b :: rest => if b = 0 then leadingZeros rest + 1 else 0

/-- Model of `base58Encode(data)` from `src/index.js`.  On the empty buffer the
source evaluates `BigInt('0x' + '')`, which throws a `SyntaxError`
(`Cannot convert 0x to a BigInt`); this is modelled by `none`.  Otherwise
the result is one leading `'1'` per leading zero byte followed by the
base-58 digits of the buffer's big-endian value, most significant first. -/
def base58Encode (data : List Nat) : Option String :=
  if data = [] then none
  else some (String.mk
    (List.replicate (leadingZeros data) '1' ++ (b58digits (bytesToNat data)).map digitChar))

/-- Model of `validateAddress(address)` from `src/index.js`: length in `[26, 35]`
and first character matching the regex `/^[bm1]/`. -/
def validateAddress (address : String) : Bool :=
  if address.length < 26 || address.length > 35 then false
  else match address.data with
    | [] => false
    | c :: _ => c == 'b' || c == 'm' || c == '1'

/-! ## SHA-256 (model of `crypto.createHash('sha256')`) -/

/-- Truncation to a 32-bit word. -/
def w32 (x : Nat) : Nat := x % 4294967296

/-- Right rotation of a 32-bit word. -/
def rotr32 (x n : Nat) : Nat := w32 ((x >>> n) ||| (x <<< (32 - n)))

/-- Left rotation of a 32-bit word. -/
def rotl32 (x n : Nat) : Nat := w32 ((x <<< n) ||| (x >>> (32 - n)))

/-- Bitwise complement of a 32-bit word. -/
def not32 (x : Nat) : Nat := x ^^^ 4294967295

/-- SHA-256 `Ch`. -/
def shaCh (x y z : Nat) : Nat := (x &&& y) ^^^ (not32 x &&& z)

/-- SHA-256 `Maj`. -/
def shaMaj (x y z : Nat) : Nat := (x &&& y) ^^^ (x &&& z) ^^^ (y &&& z)

/-- SHA-256 `Σ0`. -/
def bigSigma0 (x : Nat) : Nat := rotr32 x 2 ^^^ rotr32 x 13 ^^^ rotr32 x 22

/-- SHA-256 `Σ1`. -/
def bigSigma1 (x : Nat) : Nat := rotr32 x 6 ^^^ rotr32 x 11 ^^^ rotr32 x 25

/-- SHA-256 `σ0`. -/
def smallSigma0 (x : Nat) : Nat := rotr32 x 7 ^^^ rotr32 x 18 ^^^ (x >>> 3)

/-- SHA-256 `σ1`. -/
def smallSigma1 (x : Nat) : Nat := rotr32 x 17 ^^^ rotr32 x 19 ^^^ (x >>> 10)

/-- The 64 SHA-256 round constants of FIPS 180-4, as decimal values. -/
def shaK : List Nat :=
  [1116352408, 1899447441, 3049323471, 3921009573, 961987163, 1508970993,
   2453635748, 2870763221, 3624381080, 310598401, 607225278, 1426881987,
   1925078388, 2162078206, 2614888103, 3248222580, 3835390401, 4022224774,
   264347078, 604807628, 770255983, 1249150122, 1555081692, 1996064986,
   2554220882, 2821834349, 2952996808, 3210313671, 3336571891, 3584528711,
   113926993, 338241895, 666307205, 773529912, 1294757372, 1396182291,
   1695183700, 1986661051, 2177026350, 2456956037, 2730485921, 2820302411,
   3259730800, 3345764771, 3516065817, 3600352804, 4094571909, 275423344,
   430227734, 506948616, 659060556, 883997877, 958139571, 1322822218,
   1537002063, 1747873779, 1955562222, 2024104815, 2227730452, 2361852424,
   2428436474, 2756734187, 3204031479, 3329325298]

/-- The `k` big-endian bytes of `n`. -/
def beBytes : Nat → Nat → List Nat
  | 0, _ => []
  | k + 1, n => beBytes k (n / 256) ++ [n % 256]

/-- Merkle–Damgård padding shared by SHA-256: append `0x80`, zero bytes to
reach 56 mod 64, then the bit length on 8 big-endian bytes. -/
def sha256pad (msg : List Nat) : List Nat :=
  msg ++ [128] ++ List.replicate ((64 - (msg.length + 9) % 64) % 64) 0
      ++ beBytes 8 (msg.length * 8)

/-- Big-endian 32-bit words of a byte list (any trailing partial group is
dropped; blocks handed to it always have a multiple of 4 bytes). -/
def beWords : List Nat → List Nat
  | a :: b :: c :: d :: rest => (((a * 256 + b) * 256 + c) * 256 + d) :: beWords rest
  | _ => []

/-- Extend a 16-word block schedule by `k` further words. -/
def sha256extend (ws : List Nat) : Nat → List Nat
  | 0 => ws
  | k + 1 =>
    let ws := sha256extend ws k
    let i := ws.length
    ws ++ [w32 (smallSigma1 (ws.getD (i - 2) 0) + ws.getD (i - 7) 0
                + smallSigma0 (ws.getD (i - 15) 0) + ws.getD (i - 16) 0)]

/-- The eight 32-bit working variables of SHA-256. -/
structure Sha256State where
  a : Nat
  b : Nat
  c : Nat
  d : Nat
  e : Nat
  f : Nat
  g : Nat
  h : Nat

/-- SHA-256 initial hash value of FIPS 180-4, as decimal values. -/
def sha256init : Sha256State :=
  ⟨1779033703, 3144134277, 1013904242, 2773480762,
   1359893119, 2600822924, 528734635, 1541459225⟩

/-- One SHA-256 compression round with constant `k` and schedule word `w`. -/
def sha256round (s : Sha256State) (kw : Nat × Nat) : Sha256State :=
  let t1 := w32 (s.h + bigSigma1 s.e + shaCh s.e s.f s.g + kw.1 + kw.2)
  let t2 := w32 (bigSigma0 s.a + shaMaj s.a s.b s.c)
  ⟨w32 (t1 + t2), s.a, s.b, s.c, w32 (s.d + t1), s.e, s.f, s.g⟩

/-- Process one 64-byte block. -/
def sha256block (h : Sha256State) (block : List Nat) : Sha256State :=
  let s := (shaK.zip (sha256extend (beWords block) 48)).foldl sha256round h
  ⟨w32 (h.a + s.a), w32 (h.b + s.b), w32 (h.c + s.c), w32 (h.d + s.d),
   w32 (h.e + s.e), w32 (h.f + s.f), w32 (h.g + s.g), w32 (h.h + s.h)⟩

/-- Fuel-driven 64-byte chunking (structural recursion so that it reduces
inside the kernel); `chunks64` instantiates the fuel. -/
def chunks64Aux : Nat → List Nat → List (List Nat)
  | 0, _ => []
  | fuel + 1, l => if l = [] then [] else l.take 64 :: chunks64Aux fuel (l.drop 64)

/-- Split a byte list into 64-byte chunks; the list length is always
enough fuel since each step drops at least one element. -/
def chunks64 (l : List Nat) : List (List Nat) := chunks64Aux l.length l

/-- Four big-endian bytes of a 32-bit word. -/
def wordBE (x : Nat) : List Nat :=
  [x / 16777216 % 256, x / 65536 % 256, x / 256 % 256, x % 256]

/-- Executable SHA-256 of a byte buffer
(model of `crypto.createHash('sha256').update(data).digest()`). -/
def sha256 (msg : List Nat) : List Nat :=
  let s := (chunks64 (sha256pad msg)).foldl sha256block sha256init
  wordBE s.a ++ wordBE s.b ++ wordBE s.c ++ wordBE s.d
    ++ wordBE s.e ++ wordBE s.f ++ wordBE s.g ++ wordBE s.h

/-! ## RIPEMD-160 (model of `crypto.createHash('ripemd160')`) -/

/-- The `k` little-endian bytes of `n`. -/
def leBytes : Nat → Nat → List Nat
  | 0, _ => []
  | k + 1, n => n % 256 :: leBytes k (n / 256)

/-- RIPEMD-160 padding: like SHA-256 but the bit length is appended on 8
little-endian bytes. -/
def rmdPad (msg : List Nat) : List Nat :=
  msg ++ [128] ++ List.replicate ((64 - (msg.length + 9) % 64) % 64) 0
      ++ leBytes 8 (msg.length * 8)

/-- Little-endian 32-bit words of a byte list. -/
def leWords : List Nat → List Nat
  | a :: b :: c :: d :: rest => (((d * 256 + c) * 256 + b) * 256 + a) :: leWords rest
  | _ => []

/-- The RIPEMD-160 selection function for round index `j` (0–79). -/
def rmdF (j x y z : Nat) : Nat :=
  if j < 16 then x ^^^ y ^^^ z
  else if j < 32 then (x &&& y) ||| (not32 x &&& z)
  else if j < 48 then (x ||| not32 y) ^^^ z
  else if j < 64 then (x &&& z) ||| (y &&& not32 z)
  else x ^^^ (y ||| not32 z)

/-- Left-line round constants. -/
def rmdKL (j : Nat) : Nat :=
  if j < 16 then 0 else if j < 32 then 0x5A827999 else if j < 48 then 0x6ED9EBA1
  else if j < 64 then 0x8F1BBCDC else 0xA953FD4E

/-- Right-line round constants. -/
def rmdKR (j : Nat) : Nat :=
  if j < 16 then 0x50A28BE6 else if j < 32 then 0x5C4DD124 else if j < 48 then 0x6D703EF3
  else if j < 64 then 0x7A6D76E9 else 0

/-- Left-line message word selection. -/
def rmdRL : List Nat :=
  [0, 1, 2, 3, 4, 5, 6, 7, 8, 9, 10, 11, 12, 13, 14, 15,
   7, 4, 13, 1, 10, 6, 15, 3, 12, 0, 9, 5, 2, 14, 11, 8,
   3, 10, 14, 4, 9, 15, 8, 1, 2, 7, 0, 6, 13, 11, 5, 12,
   1, 9, 11, 10, 0, 8, 12, 4, 13, 3, 7, 15, 14, 5, 6, 2,
   4, 0, 5, 9, 7, 12, 2, 10, 14, 1, 3, 8, 11, 6, 15, 13]

/-- Right-line message word selection. -/
def rmdRR : List Nat :=
  [5, 14, 7, 0, 9, 2, 11, 4, 13, 6, 15, 8, 1, 10, 3, 12,
   6, 11, 3, 7, 0, 13, 5, 10, 14, 15, 8, 12, 4, 9, 1, 2,
   15, 5, 1, 3, 7, 14, 6, 9, 11, 8, 12, 2, 10, 0, 4, 13,
   8, 6, 4, 1, 3, 11, 15, 0, 5, 12, 2, 13, 9, 7, 10, 14,
   12, 15, 10, 4, 1, 5, 8, 7, 6, 2, 13, 14, 0, 3, 9, 11]

/-- Left-line rotation amounts. -/
def rmdSL : List Nat :=
  [11, 14, 15, 12, 5, 8, 7, 9, 11, 13, 14, 15, 6, 7, 9, 8,
   7, 6, 8, 13, 11, 9, 7, 15, 7, 12, 15, 9, 11, 7, 13, 12,
   11, 13, 6, 7, 14, 9, 13, 15, 14, 8, 13, 6, 5, 12, 7, 5,
   11, 12, 14, 15, 14, 15, 9, 8, 9, 14, 5, 6, 8, 6, 5, 12,
   9, 15, 5, 11, 6, 8, 13, 12, 5, 12, 13, 14, 11, 8, 5, 6]

/-- Right-line rotation amounts. -/
def rmdSR : List Nat :=
  [8, 9, 9, 11, 13, 15, 15, 5, 7, 7, 8, 11, 14, 14, 12, 6,
   9, 13, 15, 7, 12, 8, 9, 11, 7, 7, 12, 7, 6, 15, 13, 11,
   9, 7, 15, 11, 8, 6, 6, 14, 12, 13, 5, 14, 13, 13, 7, 5,
   15, 5, 8, 11, 14, 14, 6, 14, 6, 9, 12, 9, 12, 5, 15, 8,
   8, 5, 12, 9, 12, 5, 14, 6, 8, 13, 6, 5, 15, 13, 11, 11]

/-- The five working variables of one RIPEMD-160 line. -/
structure RmdLine where
  A : Nat
  B : Nat
  C : Nat
  D : Nat
  E : Nat

/-- One RIPEMD-160 round on one line. -/
def rmdRound (f : Nat → Nat → Nat → Nat) (x k s : Nat) (st : RmdLine) : RmdLine :=
  let t := w32 (rotl32 (w32 (st.A + f st.B st.C st.D + x + k)) s + st.E)
  ⟨st.E, t, st.B, rotl32 st.C 10, st.D⟩

/-- First `n` rounds of the left line on message words `X`. -/
def rmdLeft (X : List Nat) (st : RmdLine) : Nat → RmdLine
  | 0 => st
  | j + 1 =>
    rmdRound (rmdF j) (X.getD (rmdRL.getD j 0) 0) (rmdKL j) (rmdSL.getD j 0)
      (rmdLeft X st j)

/-- First `n` rounds of the right line on message words `X`. -/
def rmdRight (X : List Nat) (st : RmdLine) : Nat → RmdLine
  | 0 => st
  | j + 1 =>
    rmdRound (rmdF (79 - j)) (X.getD (rmdRR.getD j 0) 0) (rmdKR j) (rmdSR.getD j 0)
      (rmdRight X st j)

/-- The five chaining words of RIPEMD-160. -/
structure RmdState where
  h0 : Nat
  h1 : Nat
  h2 : Nat
  h3 : Nat
  h4 : Nat

/-- RIPEMD-160 initial chaining value. -/
def rmdInit : RmdState := ⟨0x67452301, 0xEFCDAB89, 0x98BADCFE, 0x10325476, 0xC3D2E1F0⟩

/-- Process one 64-byte block of RIPEMD-160. -/
def rmdBlock (h : RmdState) (block : List Nat) : RmdState :=
  let X := leWords block
  let init : RmdLine := ⟨h.h0, h.h1, h.h2, h.h3, h.h4⟩
  let L := rmdLeft X init 80
  let R := rmdRight X init 80
  ⟨w32 (h.h1 + L.C + R.D), w32 (h.h2 + L.D + R.E), w32 (h.h3 + L.E + R.A),
   w32 (h.h4 + L.A + R.B), w32 (h.h0 + L.B + R.C)⟩

/-- Four little-endian bytes of a 32-bit word. -/
def wordLE (x : Nat) : List Nat :=
  [x % 256, x / 256 % 256, x / 65536 % 256, x / 16777216 % 256]

/-- Executable RIPEMD-160 of a byte buffer
(model of `crypto.createHash('ripemd160').update(data).digest()`). -/
def ripemd160 (msg : List Nat) : List Nat :=
  let s := (chunks64 (rmdPad msg)).foldl rmdBlock rmdInit
  wordLE s.h0 ++ wordLE s.h1 ++ wordLE s.h2 ++ wordLE s.h3 ++ wordLE s.h4

/-- One lowercase hex digit, as used by `Buffer.prototype.toString('hex')`. -/
def hexDigit (n : Nat) : Char := "0123456789abcdef".data.getD n '?'

/-- Two lowercase hex digits of one byte. -/
def byteToHex (b : Nat) : List Char := [hexDigit (b / 16), hexDigit (b % 16)]

/-- Model of `buffer.toString('hex')`: lowercase hex encoding of a byte buffer. -/
def hexEncode (l : List Nat) : String := String.mk (l.flatMap byteToHex)

/-- Numeric value of one hex character, `none` for a non-hex character. -/
def hexVal (c : Char) : Option Nat :=
  if '0' ≤ c ∧ c ≤ '9' then some (c.toNat - 48)
  else if 'a' ≤ c ∧ c ≤ 'f' then some (c.toNat - 87)
  else if 'A' ≤ c ∧ c ≤ 'F' then some (c.toNat - 55)
  else none

/-- Model of `Buffer.from(s, 'hex')` with Node's truncating semantics: hex pairs are
decoded left to right and decoding stops (without error) at the first pair
that is incomplete or contains a non-hex character.  In particular
`Buffer.from('invalid_hex', 'hex')` is the empty buffer and
`Buffer.from('1234', 'hex')` is `[0x12, 0x34]`. -/
def hexDecodeTrunc : List Char → List Nat
  | c1 :: c2 :: rest =>
    match hexVal c1, hexVal c2 with
    | some a, some b => (a * 16 + b) :: hexDecodeTrunc rest
    | _, _ => []
  | _ => []

/-! ## The secp256k1 library boundary -/

/-- Order of the secp256k1 group. -/
def secpOrder : Nat :=
  0xFFFFFFFFFFFFFFFFFFFFFFFFFFFFFFFEBAAEDCE6AF48A03BBFD25E8CD0364141

/-- Model of the external `secp256k1.privateKeyVerify`, per the library's
documented semantics: the buffer is 32 bytes long and its big-endian value
lies strictly between 0 and the group order. -/
def privateKeyVerify (key : List Nat) : Bool :=
  key.length == 32 && decide (0 < bytesToNat key) && decide (bytesToNat key < secpOrder)

/-- Stand-in for the external `secp256k1.publicKeyCreate` used to
instantiate theorems that are parametric in it: it has the library's output
shape (33 bytes, leading parity byte) on 32-byte inputs but performs no
elliptic-curve arithmetic.  No claim depends on the curve arithmetic
itself, only on the output shape, so the development quantifies over the
function and discharges shape hypotheses with this stand-in. -/
def stubPublicKeyCreate (key : List Nat) : List Nat := 2 :: key

/-! ## The generator class (`src/index.js`) -/

/-- The constructor constant `this.MAINNET_PREFIX = 0x55`. -/
def MAINNET_VERSION : Nat := 0x55

/-- The constructor constant `this.TESTNET_PREFIX = 0x6f`. -/
def TESTNET_VERSION : Nat := 0x6f

/-- The `hash160(data)` method: RIPEMD-160 of SHA-256. -/
def hash160 (data : List Nat) : List Nat := ripemd160 (sha256 data)

/-- The `doubleSha256(data)` method: SHA-256 applied twice. -/
def doubleSha256 (data : List Nat) : List Nat := sha256 (sha256 data)

/-- The `createAddress(publicKey, testnet)` method: hash160 of the public key,
prefixed with the network version byte, followed by the first 4 bytes of
the double-SHA-256 checksum, base-58 encoded.  `none` models a thrown
exception (which in fact never occurs here: the buffer is never empty). -/
def createAddress (publicKey : List Nat) (testnet : Bool) : Option String :=
  let publicKeyHash := hash160 publicKey
  let versionByte := if testnet then TESTNET_VERSION else MAINNET_VERSION
  let prefixedHash := versionByte :: publicKeyHash
  let checksum := (doubleSha256 prefixedHash).take 4
  base58Encode (prefixedHash ++ checksum)

/-- The `getPublicKey(privateKey)` method: throws `'Invalid private key'` when
`secp256k1.privateKeyVerify` fails, otherwise returns
`secp256k1.publicKeyCreate(privateKey)` (the parameter `pc`). -/
def getPublicKey (pc : List Nat → List Nat) (privateKey : List Nat) :
    Except String (List Nat) :=
  if privateKeyVerify privateKey then Except.ok (pc privateKey)
  else Except.error "Invalid private key"

/-- The `generatePrivateKey()` method: draws 32 random bytes until
`secp256k1.privateKeyVerify` accepts.  The entropy source is modelled by
the list `draws` of successive `crypto.randomBytes(32)` results; the
do/while loop returns the first accepted draw and diverges (`none`) if no
draw in the modelled stream is accepted. -/
def generatePrivateKey (draws : List (List Nat)) : Option (List Nat) :=
  draws.find? privateKeyVerify

/-- The wallet record returned by `generateWallet` / `fromPrivateKey`. -/
structure Wallet where
  privateKey : String
  publicKey : String
  address : String
  network : String
deriving DecidableEq, Repr

/-- The network tag string of the returned wallet record:
`testnet ? 'testnet' : 'mainnet'`. -/
def networkTag (testnet : Bool) : String :=
  if testnet then "testnet" else "mainnet"

/-- The wallet built from an already-selected 32-byte key: the shared tail
of `generateWallet` and `fromPrivateKey` (derive the public key, create the
address, hex-encode the keys and tag the network).  `none` models a thrown
exception. -/
def walletFromKeyBytes (pc : List Nat → List Nat) (privateKey : List Nat)
    (testnet : Bool) : Option Wallet :=
  match getPublicKey pc privateKey with
  | Except.error _ => none
  | Except.ok publicKey =>
    match createAddress publicKey testnet with
    | none => none
    | some address =>
      some ⟨hexEncode privateKey, hexEncode publicKey, address, networkTag testnet⟩

/-- The `generateWallet(testnet)` method: fresh key from the entropy stream, then the
shared derivation tail. -/
def generateWallet (pc : List Nat → List Nat) (draws : List (List Nat))
    (testnet : Bool) : Option Wallet :=
  match generatePrivateKey draws with
  | none => none
  | some privateKey => walletFromKeyBytes pc privateKey testnet

/-- The `string|Buffer` argument of `fromPrivateKey`. -/
inductive KeyInput where
  | str (s : String)
  | buf (b : List Nat)

/-- The ternary at the top of `fromPrivateKey`: a string argument is
hex-decoded (with Node's truncating decoder), a buffer argument is kept. -/
def keyBytesOf : KeyInput → List Nat
  | KeyInput.str s => hexDecodeTrunc s.data
  | KeyInput.buf b => b

/-- The `fromPrivateKey(privateKeyHex, testnet)` method: decode the argument via
`keyBytesOf`; throw `'Private key must be 32 bytes'` unless the buffer has
length 32; then derive as in `generateWallet`.  Thrown messages are the
`Except.error` values. -/
def fromPrivateKey (pc : List Nat → List Nat) (input : KeyInput)
    (testnet : Bool) : Except String Wallet :=
  if (keyBytesOf input).length ≠ 32 then Except.error "Private key must be 32 bytes"
  else match getPublicKey pc (keyBytesOf input) with
    | Except.error e => Except.error e
    | Except.ok publicKey =>
      match createAddress publicKey testnet with
      | none => Except.error "Cannot convert 0x to a BigInt"
      | some address =>
        Except.ok ⟨hexEncode (keyBytesOf input), hexEncode publicKey, address,
                   networkTag testnet⟩

/-- The conformance-vector private key of the test suite
(`1234567890abcdef` repeated four times, as bytes). -/
def knownKey : List Nat :=
  [0x12, 0x34, 0x56, 0x78, 0x90, 0xab, 0xcd, 0xef, 0x12, 0x34, 0x56, 0x78, 0x90, 0xab, 0xcd, 0xef,
     0x12, 0x34, 0x56, 0x78, 0x90, 0xab, 0xcd, 0xef, 0x12, 0x34, 0x56, 0x78, 0x90, 0xab, 0xcd, 0xef]

/-! ## Supporting lemmas -/

theorem sha256_length (m : List Nat) : (sha256 m).length = 32 := rfl

theorem ripemd160_length (m : List Nat) : (ripemd160 m).length = 20 := rfl

theorem hash160_length (d : List Nat) : (hash160 d).length = 20 := rfl

theorem doubleSha256_length (d : List Nat) : (doubleSha256 d).length = 32 := rfl

theorem checksum_length (d : List Nat) : ((doubleSha256 d).take 4).length = 4 := rfl

theorem sha256_mem_lt (m : List Nat) : ∀ b ∈ sha256 m, b < 256 := by
  intro b hb
  simp only [sha256, wordBE, List.mem_append, List.mem_cons, List.not_mem_nil,
    or_false] at hb
  omega

theorem ripemd160_mem_lt (m : List Nat) : ∀ b ∈ ripemd160 m, b < 256 := by
  intro b hb
  simp only [ripemd160, wordLE, List.mem_append, List.mem_cons, List.not_mem_nil,
    or_false] at hb
  omega

theorem hash160_mem_lt (d : List Nat) : ∀ b ∈ hash160 d, b < 256 :=
  ripemd160_mem_lt (sha256 d)

theorem bytesToNat_foldl (l : List Nat) (a : Nat) :
    l.foldl (fun x b => x * 256 + b) a = a * 256 ^ l.length + bytesToNat l := by
  induction l generalizing a with
  | nil => simp [bytesToNat]
  | cons b t ih =>
    simp only [List.foldl_cons, bytesToNat, List.length_cons]
    rw [ih (a * 256 + b), ih (0 * 256 + b)]
    ring

theorem bytesToNat_cons (b : Nat) (t : List Nat) :
    bytesToNat (b :: t) = b * 256 ^ t.length + bytesToNat t := by
  have h := bytesToNat_foldl t b
  simpa [bytesToNat] using h

theorem bytesToNat_lt (l : List Nat) (h : ∀ b ∈ l, b < 256) :
    bytesToNat l < 256 ^ l.length := by
  induction l with
  | nil => simp [bytesToNat]
  | cons b t ih =>
    rw [bytesToNat_cons]
    have hb : b < 256 := h b (by simp)
    have ht : bytesToNat t < 256 ^ t.length := ih (fun x hx => h x (by simp [hx]))
    calc b * 256 ^ t.length + bytesToNat t
        < (b + 1) * 256 ^ t.length := by nlinarith
      _ ≤ 256 * 256 ^ t.length := Nat.mul_le_mul_right _ (by omega)
      _ = 256 ^ (b :: t).length := by rw [List.length_cons, pow_succ]; ring

theorem bytesToNat_replicate_zero (n : Nat) : bytesToNat (List.replicate n 0) = 0 := by
  induction n with
  | zero => rfl
  | succ k ih => rw [List.replicate_succ, bytesToNat_cons, ih]; ring

theorem b58digitsAux_zero : ∀ fuel, b58digitsAux fuel 0 = []
  | 0 => rfl
  | _ + 1 => rfl

theorem b58digitsAux_congr : ∀ f1 f2 n, n ≤ f1 → n ≤ f2 →
    b58digitsAux f1 n = b58digitsAux f2 n := by
  intro f1
  induction f1 with
  | zero =>
    intro f2 n h1 _
    have : n = 0 := Nat.le_zero.mp h1
    subst this
    rw [b58digitsAux_zero, b58digitsAux_zero]
  | succ f ih =>
    intro f2 n h1 h2
    by_cases hn : n = 0
    · subst hn
      rw [b58digitsAux_zero, b58digitsAux_zero]
    · rcases f2 with _ | f2
      · omega
      · show (if n = 0 then [] else b58digitsAux f (n / 58) ++ [n % 58])
          = (if n = 0 then [] else b58digitsAux f2 (n / 58) ++ [n % 58])
        rw [if_neg hn, if_neg hn]
        have hdiv : n / 58 < n := Nat.div_lt_self (Nat.pos_of_ne_zero hn) (by decide)
        rw [ih f2 (n / 58) (by omega) (by omega)]

/-- The defining recurrence of `b58digits`. -/
theorem b58digits_unfold (n : Nat) :
    b58digits n = if n = 0 then [] else b58digits (n / 58) ++ [n % 58] := by
  by_cases hn : n = 0
  · subst hn
    rfl
  · rcases n with _ | m
    · exact absurd rfl hn
    · show b58digitsAux (m + 1) (m + 1) = _
      rw [if_neg hn]
      show (if m + 1 = 0 then [] else b58digitsAux m ((m + 1) / 58) ++ [(m + 1) % 58]) = _
      rw [if_neg hn]
      have hdiv : (m + 1) / 58 < m + 1 := Nat.div_lt_self (Nat.succ_pos m) (by decide)
      rw [b58digitsAux_congr m ((m + 1) / 58) ((m + 1) / 58) (by omega) (by omega)]
      rfl

theorem b58digits_zero : b58digits 0 = [] := rfl

theorem b58digits_spec (k : Nat) : ∀ v, 58 ^ k ≤ v → v < 58 ^ (k + 1) →
    ∃ rest : List Nat, b58digits v = (v / 58 ^ k) :: rest ∧ rest.length = k := by
  induction k with
  | zero =>
    intro v h1 h2
    have hv : ¬ v = 0 := by
      have := h1
      simp only [pow_zero] at this
      omega
    refine ⟨[], ?_, rfl⟩
    rw [b58digits_unfold]
    have hdiv : v / 58 = 0 := Nat.div_eq_of_lt (by simpa using h2)
    rw [if_neg hv, hdiv, b58digits_zero]
    simp [Nat.mod_eq_of_lt (show v < 58 by simpa using h2)]
  | succ k ih =>
    intro v h1 h2
    have hv : ¬ v = 0 := by
      have : 0 < 58 ^ (k + 1) := Nat.pos_pow_of_pos _ (by decide)
      omega
    have hlo : 58 ^ k ≤ v / 58 := by
      rw [Nat.le_div_iff_mul_le (by decide : 0 < 58)]
      calc 58 ^ k * 58 = 58 ^ (k + 1) := (pow_succ 58 k).symm
        _ ≤ v := h1
    have hhi : v / 58 < 58 ^ (k + 1) := by
      rw [Nat.div_lt_iff_lt_mul (by decide : 0 < 58)]
      calc v < 58 ^ (k + 2) := h2
        _ = 58 ^ (k + 1) * 58 := pow_succ 58 (k + 1)
    obtain ⟨rest, hrest, hlen⟩ := ih (v / 58) hlo hhi
    refine ⟨rest ++ [v % 58], ?_, by simp [hlen]⟩
    rw [b58digits_unfold, if_neg hv, hrest]
    have : v / 58 / 58 ^ k = v / 58 ^ (k + 1) := by
      rw [Nat.div_div_eq_div_mul, pow_succ, mul_comm 58 (58 ^ k)]
    rw [this, List.cons_append]

theorem leadingZeros_replicate_zero (n : Nat) :
    leadingZeros (List.replicate n 0) = n := by
  induction n with
  | zero => rfl
  | succ k ih => rw [List.replicate_succ]; simp [leadingZeros, ih]

theorem base58Encode_cons (b : Nat) (t : List Nat) (hb : b ≠ 0) :
    base58Encode (b :: t)
      = some (String.mk ((b58digits (bytesToNat (b :: t))).map digitChar)) := by
  simp [base58Encode, leadingZeros, hb]

theorem payload_tail_length (pk : List Nat) (vb : Nat) :
    (hash160 pk ++ (doubleSha256 (vb :: hash160 pk)).take 4).length = 24 := by
  rw [List.length_append, hash160_length, checksum_length]

theorem payload_tail_lt (pk : List Nat) (vb : Nat) :
    bytesToNat (hash160 pk ++ (doubleSha256 (vb :: hash160 pk)).take 4) < 256 ^ 24 := by
  have h := bytesToNat_lt (hash160 pk ++ (doubleSha256 (vb :: hash160 pk)).take 4) ?_
  · rwa [payload_tail_length] at h
  · intro b hb
    rcases List.mem_append.mp hb with h' | h'
    · exact hash160_mem_lt pk b h'
    · exact sha256_mem_lt _ b (List.take_subset _ _ h')

theorem createAddress_mainnet_head (pk : List Nat) :
    ∃ s, createAddress pk false = some s ∧ s.data.head? = some 'b' := by
  have hlen : (hash160 pk ++ (doubleSha256 (85 :: hash160 pk)).take 4).length = 24 :=
    payload_tail_length pk 85
  have htlt : bytesToNat (hash160 pk ++ (doubleSha256 (85 :: hash160 pk)).take 4)
      < 256 ^ 24 := payload_tail_lt pk 85
  have hv : bytesToNat (85 :: (hash160 pk ++ (doubleSha256 (85 :: hash160 pk)).take 4))
      = 85 * 256 ^ 24 + bytesToNat (hash160 pk ++ (doubleSha256 (85 :: hash160 pk)).take 4) := by
    rw [bytesToNat_cons, hlen]
  have hlow : 34 * 58 ^ 33
      ≤ bytesToNat (85 :: (hash160 pk ++ (doubleSha256 (85 :: hash160 pk)).take 4)) := by
    rw [hv]
    have h84 : (34 * 58 ^ 33 : Nat) ≤ 85 * 256 ^ 24 := by decide
    omega
  have hhigh : bytesToNat (85 :: (hash160 pk ++ (doubleSha256 (85 :: hash160 pk)).take 4))
      < 35 * 58 ^ 33 := by
    rw [hv]
    have h86 : (86 * 256 ^ 24 : Nat) ≤ 35 * 58 ^ 33 := by decide
    omega
  obtain ⟨rest, hdig, -⟩ := b58digits_spec 33
    (bytesToNat (85 :: (hash160 pk ++ (doubleSha256 (85 :: hash160 pk)).take 4)))
    (le_trans (by decide : (58 : Nat) ^ 33 ≤ 34 * 58 ^ 33) hlow)
    (lt_of_lt_of_le hhigh (by decide : (35 * 58 ^ 33 : Nat) ≤ 58 ^ (33 + 1)))
  have hdiv : bytesToNat (85 :: (hash160 pk ++ (doubleSha256 (85 :: hash160 pk)).take 4))
      / 58 ^ 33 = 34 := by
    have hp : (0 : Nat) < 58 ^ 33 := pow_pos (by decide) 33
    have h1 := (Nat.le_div_iff_mul_le hp).mpr hlow
    have h2 := (Nat.div_lt_iff_lt_mul hp).mpr hhigh
    omega
  refine ⟨String.mk ((b58digits (bytesToNat
    (85 :: (hash160 pk ++ (doubleSha256 (85 :: hash160 pk)).take 4)))).map digitChar),
    ?_, ?_⟩
  · exact base58Encode_cons _ _ (by decide)
  · rw [hdig, hdiv]
    rfl

theorem createAddress_testnet_head (pk : List Nat) :
    ∃ s, createAddress pk true = some s
      ∧ (s.data.head? = some 'm' ∨ s.data.head? = some 'n') := by
  have hlen : (hash160 pk ++ (doubleSha256 (111 :: hash160 pk)).take 4).length = 24 :=
    payload_tail_length pk 111
  have htlt : bytesToNat (hash160 pk ++ (doubleSha256 (111 :: hash160 pk)).take 4)
      < 256 ^ 24 := payload_tail_lt pk 111
  have hv : bytesToNat (111 :: (hash160 pk ++ (doubleSha256 (111 :: hash160 pk)).take 4))
      = 111 * 256 ^ 24 + bytesToNat (hash160 pk ++ (doubleSha256 (111 :: hash160 pk)).take 4) := by
    rw [bytesToNat_cons, hlen]
  have hlow : 44 * 58 ^ 33
      ≤ bytesToNat (111 :: (hash160 pk ++ (doubleSha256 (111 :: hash160 pk)).take 4)) := by
    rw [hv]
    have h44 : (44 * 58 ^ 33 : Nat) ≤ 111 * 256 ^ 24 := by decide
    omega
  have hhigh : bytesToNat (111 :: (hash160 pk ++ (doubleSha256 (111 :: hash160 pk)).take 4))
      < 46 * 58 ^ 33 := by
    rw [hv]
    have h46 : (112 * 256 ^ 24 : Nat) ≤ 46 * 58 ^ 33 := by decide
    omega
  obtain ⟨rest, hdig, -⟩ := b58digits_spec 33
    (bytesToNat (111 :: (hash160 pk ++ (doubleSha256 (111 :: hash160 pk)).take 4)))
    (le_trans (by decide : (58 : Nat) ^ 33 ≤ 44 * 58 ^ 33) hlow)
    (lt_of_lt_of_le hhigh (by decide : (46 * 58 ^ 33 : Nat) ≤ 58 ^ (33 + 1)))
  have hdiv : bytesToNat (111 :: (hash160 pk ++ (doubleSha256 (111 :: hash160 pk)).take 4))
      / 58 ^ 33 = 44
      ∨ bytesToNat (111 :: (hash160 pk ++ (doubleSha256 (111 :: hash160 pk)).take 4))
      / 58 ^ 33 = 45 := by
    have hp : (0 : Nat) < 58 ^ 33 := pow_pos (by decide) 33
    have h1 := (Nat.le_div_iff_mul_le hp).mpr hlow
    have h2 := (Nat.div_lt_iff_lt_mul hp).mpr hhigh
    omega
  refine ⟨String.mk ((b58digits (bytesToNat
    (111 :: (hash160 pk ++ (doubleSha256 (111 :: hash160 pk)).take 4)))).map digitChar),
    ?_, ?_⟩
  · exact base58Encode_cons _ _ (by decide)
  · rcases hdiv with hdiv | hdiv
    · left
      rw [hdig, hdiv]
      rfl
    · right
      rw [hdig, hdiv]
      rfl

theorem createAddress_is_some (pk : List Nat) (tn : Bool) :
    ∃ s, createAddress pk tn = some s := by
  cases tn
  · obtain ⟨s, hs, -⟩ := createAddress_mainnet_head pk
    exact ⟨s, hs⟩
  · obtain ⟨s, hs, -⟩ := createAddress_testnet_head pk
    exact ⟨s, hs⟩

theorem hexVal_hexDigit : ∀ d < 16, hexVal (hexDigit d) = some d := by decide

theorem hexDecodeTrunc_cons (c1 c2 : Char) (rest : List Char) (a b : Nat)
    (h1 : hexVal c1 = some a) (h2 : hexVal c2 = some b) :
    hexDecodeTrunc (c1 :: c2 :: rest) = (a * 16 + b) :: hexDecodeTrunc rest := by
  simp [hexDecodeTrunc, h1, h2]

theorem hexDecode_hexEncode (l : List Nat) (h : ∀ b ∈ l, b < 256) :
    hexDecodeTrunc (hexEncode l).data = l := by
  show hexDecodeTrunc (l.flatMap byteToHex) = l
  induction l with
  | nil => rfl
  | cons b t ih =>
    have hb : b < 256 := h b (by simp)
    rw [List.flatMap_cons]
    show hexDecodeTrunc (hexDigit (b / 16) :: hexDigit (b % 16) :: t.flatMap byteToHex)
      = b :: t
    rw [hexDecodeTrunc_cons _ _ _ _ _ (hexVal_hexDigit (b / 16) (by omega))
      (hexVal_hexDigit (b % 16) (Nat.mod_lt _ (by decide)))]
    have hdm : b / 16 * 16 + b % 16 = b := by omega
    rw [hdm, ih (fun x hx => h x (by simp [hx]))]

theorem privateKeyVerify_true_iff (k : List Nat) :
    privateKeyVerify k = true
      ↔ (k.length = 32 ∧ 0 < bytesToNat k ∧ bytesToNat k < secpOrder) := by
  simp [privateKeyVerify, and_assoc]

/-! ## Claim theorems -/

/-- Claim C2, counterexample:  The claim states that `base58Encode` on the
empty (0-byte) buffer returns the empty string rather than failing.  In the
source the empty buffer leads to `BigInt('0x' + '')`, which throws a
`SyntaxError` (`Cannot convert 0x to a BigInt`), modelled by `none`: the
call fails instead of returning `some ""`. -/
theorem claim2_empty_counterexample : base58Encode (List.replicate 0 0) = none := rfl

/-- Claim C2, amended:  For every `N ≥ 1`, `base58Encode` applied to the
all-zero buffer of `N` bytes returns the string of exactly `N` `'1'`
characters (for `N = 0` the call fails instead of returning `""`). -/
theorem claim2_allzero_encoding (N : Nat) (h : 1 ≤ N) :
    base58Encode (List.replicate N 0) = some (String.mk (List.replicate N '1')) := by
  have hne : List.replicate N (0 : Nat) ≠ [] := by
    intro hc
    rw [List.replicate_eq_nil_iff] at hc
    omega
  simp [base58Encode, hne, bytesToNat_replicate_zero, b58digits_zero,
    leadingZeros_replicate_zero]

/-- Claim C2, witness:  The amended theorem evaluated at `N = 3`. -/
theorem claim2_witness :
    1 ≤ 3 ∧ base58Encode (List.replicate 3 0) = some (String.mk (List.replicate 3 '1')) :=
  ⟨by decide, claim2_allzero_encoding 3 (by decide)⟩

/-- Claim C4:  `validateAddress` returns `true` exactly when the length of
the string lies in `[26, 35]` and its first character is one of `'b'`,
`'m'`, `'1'`; in particular a 25- or 36-character string is rejected and a
30-character string starting with `'b'` is accepted. -/
theorem claim4_validateAddress_iff (s : String) :
    (validateAddress s = true ↔
      (26 ≤ s.length ∧ s.length ≤ 35 ∧
        (s.data.head? = some 'b' ∨ s.data.head? = some 'm' ∨ s.data.head? = some '1'))) ∧
    validateAddress (String.mk (List.replicate 25 'b')) = false ∧
    validateAddress (String.mk (List.replicate 36 'b')) = false ∧
    validateAddress (String.mk (List.replicate 30 'b')) = true := by
  refine ⟨?_, by decide, by decide, by decide⟩
  have hlen : s.length = s.data.length := rfl
  unfold validateAddress
  rcases hd : s.data with _ | ⟨c, rest⟩
  · rw [hd] at hlen
    simp only [List.length_nil] at hlen
    simp [hlen]
  · rw [hd] at hlen
    by_cases h1 : s.length < 26 ∨ 35 < s.length
    · have hcond : (decide (s.length < 26) || decide (s.length > 35)) = true := by
        rcases h1 with h | h <;> simp [h]
      rw [if_pos hcond]
      constructor
      · intro hv
        simp at hv
      · intro hv
        exfalso
        obtain ⟨ha, hb, -⟩ := hv
        rcases h1 with h | h <;> omega
    · push_neg at h1
      have hcond : (decide (s.length < 26) || decide (s.length > 35)) = false := by
        simp only [Bool.or_eq_false_iff, decide_eq_false_iff_not]
        exact ⟨Nat.not_lt.mpr h1.1, Nat.not_lt.mpr h1.2⟩
      rw [if_neg (by simp [hcond])]
      simp only [List.head?_cons, Option.some_inj]
      constructor
    -- forward: boolean disjunction to propositional description
      · intro hv
        refine ⟨h1.1, h1.2, ?_⟩
        simpa [or_assoc] using hv
      · intro hv
        simpa [or_assoc] using hv.2.2

/-- Claim C3, counterexample:  The claim states that `fromPrivateKey`
distinguishes undecodable hex (`MalformedInput`) from wrong length
(`WrongLength`).  In the source, `Buffer.from('invalid_hex', 'hex')`
silently decodes to an empty buffer, so both `"invalid_hex"` and `"1234"`
fail with the one and the same `'Private key must be 32 bytes'` error:
there is no separate malformed-input error kind to branch on. -/
theorem claim3_single_error_counterexample :
    fromPrivateKey stubPublicKeyCreate (KeyInput.str "invalid_hex") false
      = Except.error "Private key must be 32 bytes" ∧
    fromPrivateKey stubPublicKeyCreate (KeyInput.str "1234") false
      = Except.error "Private key must be 32 bytes" := ⟨rfl, rfl⟩

/-- Claim C3, amended:  `fromPrivateKey` does not distinguish the two input
error kinds: a string that is not decodable hex decodes (by Node's
truncating hex decoder) to a buffer of the wrong length, so both
`"invalid_hex"` and `"1234"` fail with the same
`'Private key must be 32 bytes'` error, for any public-key backend and
network; and the only errors `fromPrivateKey` can ever raise are
`'Private key must be 32 bytes'` and `'Invalid private key'`. -/
theorem claim3_error_kinds (pc : List Nat → List Nat) (tn : Bool) :
    fromPrivateKey pc (KeyInput.str "invalid_hex") tn
      = Except.error "Private key must be 32 bytes" ∧
    fromPrivateKey pc (KeyInput.str "1234") tn
      = Except.error "Private key must be 32 bytes" ∧
    ∀ input e, fromPrivateKey pc input tn = Except.error e →
      e = "Private key must be 32 bytes" ∨ e = "Invalid private key" := by
  refine ⟨?_, ?_, ?_⟩
  · have h : (keyBytesOf (KeyInput.str "invalid_hex")).length = 0 := by decide
    unfold fromPrivateKey
    rw [if_pos (by rw [h]; decide)]
  · have h : (keyBytesOf (KeyInput.str "1234")).length = 2 := by decide
    unfold fromPrivateKey
    rw [if_pos (by rw [h]; decide)]
  · intro input e he
    unfold fromPrivateKey at he
    split at he
    · exact Or.inl (Except.error.inj he).symm
    · split at he
      · rename_i e' hgp
        unfold getPublicKey at hgp
        split at hgp
        · cases hgp
        · exact Or.inr ((Except.error.inj he).symm.trans (Except.error.inj hgp).symm)
      · rename_i p hgp
        split at he
        · rename_i hca
          obtain ⟨s, hs⟩ := createAddress_is_some p tn
          rw [hs] at hca
          cases hca
        · cases he

/-- Claim C3, witness for the amended theorem's universally quantified part,
at the concrete stand-in backend and the spec's own rejection input. -/
theorem claim3_witness :
    ("Private key must be 32 bytes" = "Private key must be 32 bytes"
      ∨ "Private key must be 32 bytes" = "Invalid private key") :=
  (claim3_error_kinds stubPublicKeyCreate false).2.2 (KeyInput.str "1234") _ rfl


/-- Claim C1:  For every 33-byte public key and network selector,
`createAddress` returns the base-58 encoding of the 25-byte buffer
`version ‖ RIPEMD160(SHA256(pk)) ‖ checksum` where `version` is `0x6f` for
testnet and `0x55` for mainnet and `checksum` is the first 4 bytes of
`SHA256(SHA256(version ‖ hash160(pk)))`; the call is deterministic (a pure
function) and never fails. -/
theorem claim1_createAddress_spec (pk : List Nat) (tn : Bool) (hpk : pk.length = 33) :
    createAddress pk tn
      = base58Encode ((if tn then TESTNET_VERSION else MAINNET_VERSION)
          :: ripemd160 (sha256 pk)
          ++ (sha256 (sha256 ((if tn then TESTNET_VERSION else MAINNET_VERSION)
              :: ripemd160 (sha256 pk)))).take 4) ∧
    ((if tn then TESTNET_VERSION else MAINNET_VERSION) :: ripemd160 (sha256 pk)
        ++ (sha256 (sha256 ((if tn then TESTNET_VERSION else MAINNET_VERSION)
            :: ripemd160 (sha256 pk)))).take 4).length = 25 ∧
    ∃ s, createAddress pk tn = some s := by
  refine ⟨rfl, ?_, createAddress_is_some pk tn⟩
  rw [List.length_append, List.length_cons, ripemd160_length]
  rfl

/-- Claim C1, witness at the 33-byte buffer of `0x02` bytes on mainnet. -/
theorem claim1_witness :
    (List.replicate 33 2).length = 33 ∧
    (createAddress (List.replicate 33 2) false
      = base58Encode ((if false then TESTNET_VERSION else MAINNET_VERSION)
          :: ripemd160 (sha256 (List.replicate 33 2))
          ++ (sha256 (sha256 ((if false then TESTNET_VERSION else MAINNET_VERSION)
              :: ripemd160 (sha256 (List.replicate 33 2))))).take 4) ∧
    ((if false then TESTNET_VERSION else MAINNET_VERSION)
        :: ripemd160 (sha256 (List.replicate 33 2))
        ++ (sha256 (sha256 ((if false then TESTNET_VERSION else MAINNET_VERSION)
            :: ripemd160 (sha256 (List.replicate 33 2))))).take 4).length = 25 ∧
    ∃ s, createAddress (List.replicate 33 2) false = some s) :=
  ⟨by decide, claim1_createAddress_spec (List.replicate 33 2) false (by decide)⟩

/-- Claim C5:  Every address `createAddress` produces starts with `'b'` on
mainnet and with `'m'` or `'n'` on testnet, as a consequence of the fixed
version bytes `0x55` and `0x6f` heading the 25-byte payload before base-58
encoding. -/
theorem claim5_network_first_char (pk : List Nat) (tn : Bool) (s : String)
    (h : createAddress pk tn = some s) :
    (tn = false → s.data.head? = some 'b') ∧
    (tn = true → s.data.head? = some 'm' ∨ s.data.head? = some 'n') := by
  constructor
  · intro htn
    subst htn
    obtain ⟨s2, hs2, hhead⟩ := createAddress_mainnet_head pk
    rw [h] at hs2
    rw [Option.some.inj hs2]
    exact hhead
  · intro htn
    subst htn
    obtain ⟨s2, hs2, hhead⟩ := createAddress_testnet_head pk
    rw [h] at hs2
    rw [Option.some.inj hs2]
    exact hhead

set_option maxRecDepth 100000 in
/-- Claim C5, witness: the mainnet address of the all-`0x02` public key
starts with `'b'`. -/
theorem claim5_witness :
    (false = false
      → ("bLAELJej8HiGCxkxHTas5fdfjfmBZ53qK7" : String).data.head? = some 'b') ∧
    (false = true
      → ("bLAELJej8HiGCxkxHTas5fdfjfmBZ53qK7" : String).data.head? = some 'm'
        ∨ ("bLAELJej8HiGCxkxHTas5fdfjfmBZ53qK7" : String).data.head? = some 'n') :=
  claim5_network_first_char (List.replicate 33 2) false
    "bLAELJej8HiGCxkxHTas5fdfjfmBZ53qK7" (by decide)

set_option maxRecDepth 100000 in
/-- Claim C6:  `validateAddress` returns `false` for every string whose
first character is `'n'` (the allow-list is exactly `[bm1]`), and there is
a well-formed testnet address produced by `createAddress` that starts with
`'n'` and is therefore rejected by `validateAddress`. -/
theorem claim6_validator_rejects_testnet (s0 : String)
    (h0 : s0.data.head? = some 'n') :
    validateAddress s0 = false ∧
    ∃ pk s, createAddress pk true = some s ∧ s.data.head? = some 'n'
      ∧ validateAddress s = false := by
  constructor
  · unfold validateAddress
    rcases hd : s0.data with _ | ⟨c, rest⟩
    · rw [hd] at h0
      cases h0
    · rw [hd] at h0
      have hc : c = 'n' := Option.some.inj h0
      subst hc
      split
    -- length out of range: the first branch is already false
      · rfl
      · rfl
  · exact ⟨List.replicate 33 3, "n3gfLznbiEDrEtxD66rQdjp5yVouPLMjKH",
      by decide, by decide, by decide⟩

/-- Claim C6, witness at the concrete rejected testnet address. -/
theorem claim6_witness :
    validateAddress "n3gfLznbiEDrEtxD66rQdjp5yVouPLMjKH" = false ∧
    ∃ pk s, createAddress pk true = some s ∧ s.data.head? = some 'n'
      ∧ validateAddress s = false :=
  claim6_validator_rejects_testnet "n3gfLznbiEDrEtxD66rQdjp5yVouPLMjKH" (by decide)

/-- Claim C7:  Round-trip key reconstruction: building a wallet from the hex
encoding of a valid 32-byte key yields exactly the same result as building
it from the raw key bytes, and the same wallet (in particular the same
address) as the `generateWallet` derivation tail seeded with that key. -/
theorem claim7_roundtrip (pc : List Nat → List Nat) (k : List Nat) (tn : Bool)
    (hlen : k.length = 32) (hbytes : ∀ b ∈ k, b < 256)
    (hv : privateKeyVerify k = true) :
    fromPrivateKey pc (KeyInput.str (hexEncode k)) tn
      = fromPrivateKey pc (KeyInput.buf k) tn ∧
    ∃ w, fromPrivateKey pc (KeyInput.str (hexEncode k)) tn = Except.ok w
      ∧ walletFromKeyBytes pc k tn = some w := by
  have hdec : keyBytesOf (KeyInput.str (hexEncode k)) = k :=
    hexDecode_hexEncode k hbytes
  have hgp : getPublicKey pc k = Except.ok (pc k) := by
    unfold getPublicKey
    rw [if_pos hv]
  obtain ⟨s, hs⟩ := createAddress_is_some (pc k) tn
  refine ⟨?_, ⟨hexEncode k, hexEncode (pc k), s, networkTag tn⟩, ?_, ?_⟩
  · unfold fromPrivateKey
    rw [hdec]
    exact rfl
  · simp [fromPrivateKey, hdec, hlen, hgp, hs]
  · simp [walletFromKeyBytes, hgp, hs]

/-- Claim C7, witness at the conformance-vector private key from the test
suite, with the shape-correct stand-in for the curve library. -/
theorem claim7_witness :
    ∃ w, fromPrivateKey stubPublicKeyCreate
        (KeyInput.str (hexEncode knownKey)) false = Except.ok w
      ∧ walletFromKeyBytes stubPublicKeyCreate knownKey false = some w :=
  (claim7_roundtrip stubPublicKeyCreate knownKey false
    (by decide) (by decide) (by decide)).2

/-- Claim C8:  Determinism: the generated wallet depends only on the selected
private key and the network, not on any other part of the entropy stream —
two runs whose key-selection loop settles on the same key produce identical
wallets, equal to the pure derivation tail applied to that key. -/
theorem claim8_determinism (pc : List Nat → List Nat)
    (draws1 draws2 : List (List Nat)) (tn : Bool) (k : List Nat)
    (h1 : generatePrivateKey draws1 = some k)
    (h2 : generatePrivateKey draws2 = some k) :
    generateWallet pc draws1 tn = generateWallet pc draws2 tn ∧
    generateWallet pc draws1 tn = walletFromKeyBytes pc k tn := by
  unfold generateWallet
  rw [h1, h2]
  exact ⟨rfl, rfl⟩

/-- Claim C8, witness: two entropy streams (the second one beginning with a
rejected draw) that settle on the same key generate the same wallet. -/
theorem claim8_witness :
    generateWallet stubPublicKeyCreate [knownKey] false
      = generateWallet stubPublicKeyCreate [[], knownKey] false ∧
    generateWallet stubPublicKeyCreate [knownKey] false
      = walletFromKeyBytes stubPublicKeyCreate knownKey false :=
  claim8_determinism stubPublicKeyCreate [knownKey] [[], knownKey] false
    knownKey (by decide) (by decide)

/-- Claim C9:  `getPublicKey` fails with the `'Invalid private key'` error
exactly when the 32-byte key fails the secp256k1 curve-order validity
predicate (value zero or at least the group order); on a valid key it
returns the library's public key, which is 33 bytes long whenever the
backend has the documented compressed-point output shape. -/
theorem claim9_getPublicKey_errors (pc : List Nat → List Nat) (sk : List Nat)
    (hlen : sk.length = 32)
    (hpc : ∀ x, x.length = 32 → (pc x).length = 33) :
    (getPublicKey pc sk = Except.error "Invalid private key"
      ↔ (bytesToNat sk = 0 ∨ secpOrder ≤ bytesToNat sk)) ∧
    ((0 < bytesToNat sk ∧ bytesToNat sk < secpOrder) →
      getPublicKey pc sk = Except.ok (pc sk) ∧ (pc sk).length = 33) := by
  constructor
  · constructor
    · intro he
      unfold getPublicKey at he
      by_cases hv : privateKeyVerify sk = true
      · rw [if_pos hv] at he
        cases he
      · rw [privateKeyVerify_true_iff] at hv
        push_neg at hv
        have := hv hlen
        omega
    · intro hbad
      unfold getPublicKey
      rw [if_neg ?_]
      rw [privateKeyVerify_true_iff]
      push_neg
      intro _ h0
      omega
  · intro hgood
    have hv : privateKeyVerify sk = true :=
      (privateKeyVerify_true_iff sk).mpr ⟨hlen, hgood.1, hgood.2⟩
    constructor
    · unfold getPublicKey
      rw [if_pos hv]
    · exact hpc sk hlen

/-- Claim C9, witness at the conformance-vector key and the shape-correct
stand-in backend. -/
theorem claim9_witness :
    (getPublicKey stubPublicKeyCreate knownKey = Except.error "Invalid private key"
      ↔ (bytesToNat knownKey = 0 ∨ secpOrder ≤ bytesToNat knownKey)) ∧
    ((0 < bytesToNat knownKey ∧ bytesToNat knownKey < secpOrder) →
      getPublicKey stubPublicKeyCreate knownKey
          = Except.ok (stubPublicKeyCreate knownKey)
        ∧ (stubPublicKeyCreate knownKey).length = 33) :=
  claim9_getPublicKey_errors stubPublicKeyCreate knownKey (by decide)
    (fun x hx => by simp [stubPublicKeyCreate, hx])

/-- Claim C10:  Output shapes: `hash160` always returns 20 bytes,
`doubleSha256` always returns 32 bytes, any key selected by
`generatePrivateKey` is 32 bytes, and on a verified key `getPublicKey`
returns 33 bytes whenever the curve backend has the documented output
shape. -/
theorem claim10_output_lengths :
    (∀ d : List Nat, (hash160 d).length = 20) ∧
    (∀ d : List Nat, (doubleSha256 d).length = 32) ∧
    (∀ (draws : List (List Nat)) (k : List Nat),
      generatePrivateKey draws = some k → k.length = 32) ∧
    (∀ (pc : List Nat → List Nat) (sk : List Nat),
      (∀ x, x.length = 32 → (pc x).length = 33) →
      privateKeyVerify sk = true →
      ∃ p, getPublicKey pc sk = Except.ok p ∧ p.length = 33) := by
  refine ⟨hash160_length, doubleSha256_length, ?_, ?_⟩
  · intro draws k hk
    have hv : privateKeyVerify k = true := List.find?_some hk
    exact ((privateKeyVerify_true_iff k).mp hv).1
  · intro pc sk hpc hv
    refine ⟨pc sk, ?_, hpc sk ((privateKeyVerify_true_iff sk).mp hv).1⟩
    unfold getPublicKey
    rw [if_pos hv]

/-- Claim C10, witness: the inner hypotheses discharged at concrete inputs. -/
theorem claim10_witness :
    (hash160 []).length = 20 ∧
    (doubleSha256 []).length = 32 ∧
    knownKey.length = 32 ∧
    ∃ p, getPublicKey stubPublicKeyCreate knownKey = Except.ok p
      ∧ p.length = 33 :=
  ⟨claim10_output_lengths.1 [],
   claim10_output_lengths.2.1 [],
   claim10_output_lengths.2.2.1 [knownKey] knownKey (by decide),
   claim10_output_lengths.2.2.2 stubPublicKeyCreate knownKey
     (fun x hx => by simp [stubPublicKeyCreate, hx]) (by decide)⟩

end LBRY
